import Mathlib

/-!
Verification development for the androprint printer server.

The repository ships several server variants; the definitions below are
shallow embeddings of the functions the claims talk about:
- the Final variant (src/server.js): authCheck, readPrinters, the
  /api/printer/save quota logic, /api/printer/delete;
- the Core variant A (first half of src/core/server.js): authRequired,
  isPrinterOnline, the /print printer resolution, printInvoice;
- the Core variant B (second half of src/core/server.js): printer.env
  records, the /api/printer/save quota, rawPrint plus the /print route,
  /api/client/create;
- the Stable variant (src/unnamed/part_000): safeRead-based loaders,
  authRequired, isPrinterOnline, /api/printer/save, /api/printer/delete,
  /api/client/create, /print.

JavaScript numbers are modelled as rationals (with a separate NaN
constructor where NaN matters), JS absent-or-string header values as
Option String, and the persisted files as explicit values threaded
through the operations.
-/

set_option linter.unusedVariables false

/-- A printer record of the JSON-backed variants
(fields of the objects stored under the printers key). -/
structure PrinterRec where
  id : String
  name : Option String := none
  role : String := ""
  ip : String := ""
  port : Nat := 0
  enabled : Bool := false
deriving DecidableEq

/-- A printer record of the Core variant B, parsed from printer.env:
every field value is a string (loadPrinters in src/core/server.js). -/
structure PrinterEnvRec where
  id : String
  role : String := ""
  status : String := ""
  ip : String := ""
  port : String := ""
  cutFlag : String := ""
deriving DecidableEq

/-- A client record.  The Stable variant mints id, pin, role, enabled and
createdAt; the Core variant B mints only id and pin, so the remaining
fields are optional (JS: absent property = undefined). -/
structure ClientRec where
  id : String
  pin : String
  role : Option String := none
  enabled : Option Bool := none
  createdAt : Option String := none
deriving DecidableEq

/-- Outcome of a save route: HTTP 200 success body or HTTP 400 error body. -/
inductive SaveResp where
  | okResp
  | errResp (msg : String)
deriving DecidableEq

/-- JS falsiness of a header / body field that is either absent
(undefined) or a string: undefined and the empty string are falsy. -/
def falsyStr : Option String → Bool
  | none => true
  | some s => s == ""

/-- printers.filter(x => x.role === r).length in src/server.js:
counts every record with the given role, enabled or not. -/
def countRole (ps : List PrinterRec) (r : String) : Nat :=
  (ps.filter (fun x => x.role == r)).length

/-- Object.values(printers).filter(p => p.role === role).length in the
Core variant B save route. -/
def countRoleB (qs : List PrinterEnvRec) (r : String) : Nat :=
  (qs.filter (fun x => x.role == r)).length

/-- POST /api/printer/save of src/server.js (lines 110-128).
Returns the HTTP outcome and the registry contents after the request
(unchanged when the quota rejects, since savePrinters is not reached). -/
def saveFinal (ps : List PrinterRec) (p : PrinterRec) : SaveResp × List PrinterRec :=
  if (ps.find? (fun x => x.id == p.id)).isNone then
    if p.role = "CASHIER" ∧ 3 ≤ countRole ps "CASHIER" then
      (.errResp "Max Cashier printers reached", ps)
    else if p.role = "KITCHEN" ∧ 3 ≤ countRole ps "KITCHEN" then
      (.errResp "Max Kitchen printers reached", ps)
    else (.okResp, ps ++ [p])
  else
    (.okResp, ps.set (ps.findIdx (fun x => x.id == p.id)) p)

/-- POST /api/printer/save of the Stable variant (src/unnamed/part_000
lines 212-222): findIndex, replace in place or push, no quota. -/
def saveP000 (ps : List PrinterRec) (p : PrinterRec) : List PrinterRec :=
  match ps.findIdx? (fun x => x.id == p.id) with
  | some i => ps.set i p
  | none => ps ++ [p]

/-- POST /api/printer/delete of src/server.js and of the Stable variant:
filter out the records whose id equals the requested id. -/
def deleteP000 (ps : List PrinterRec) (idv : String) : List PrinterRec :=
  ps.filter (fun r => !(r.id == idv))

/-- POST /api/printer/save of the Core variant B (src/core/server.js
lines 430-441): count all records sharing the role, reject a new id at
3 or more, otherwise assign printers[id] = body (JS object assignment:
replace in place for an existing key, append for a new key). -/
def saveB (qs : List PrinterEnvRec) (q : PrinterEnvRec) : SaveResp × List PrinterEnvRec :=
  if (qs.find? (fun x => x.id == q.id)).isNone ∧ 3 ≤ countRoleB qs q.role then
    (.errResp "Max 3 printers per role", qs)
  else
    (.okResp,
      match qs.findIdx? (fun x => x.id == q.id) with
      | some i => qs.set i q
      | none => qs ++ [q])

/-- Result of the Stable variant auth middleware. -/
inductive AuthOutP where
  | okNoAuth
  | okClient (c : ClientRec)
  | e401 (msg : String)
  | e403 (msg : String)
deriving DecidableEq

/-- authRequired of src/unnamed/part_000 (lines 101-123). -/
def authRequiredP000 (flag : Bool) (cs : List ClientRec) (cid key : Option String) : AuthOutP :=
  if !flag then .okNoAuth
  else if falsyStr cid || falsyStr key then .e401 "Client ID / Print Key missing"
  else
    match cs.find? (fun c => some c.id == cid) with
    | none => .e403 "Client not allowed"
    | some c =>
      if !(c.enabled == some true) then .e403 "Client not allowed"
      else if !(some c.pin == key) then .e403 "Invalid Print Key"
      else .okClient c

/-- Result of authCheck in src/server.js: it either lets the request
through or answers 401 Unauthorized. -/
inductive AuthOutF where
  | passF
  | fail401
deriving DecidableEq

/-- authCheck of src/server.js (lines 46-60): one combined lookup, every
failure (missing header, unknown id, disabled client, wrong key) yields
the same 401 Unauthorized response. -/
def authCheckFinal (flag : Bool) (cs : List ClientRec) (cid key : Option String) : AuthOutF :=
  if !flag then .passF
  else if (cs.find? (fun c => some c.id == cid && some c.pin == key && c.enabled == some true)).isSome
  then .passF
  else .fail401

/-- Result of the Core variant B auth middleware. -/
inductive AuthOutB where
  | passB
  | b401
  | b403
deriving DecidableEq

/-- auth of the Core variant B (src/core/server.js lines 371-382):
401 on missing headers, one combined id-and-pin lookup with no enabled
check, 403 when it fails. -/
def authB (flag : Bool) (cs : List ClientRec) (cid key : Option String) : AuthOutB :=
  if !flag then .passB
  else if falsyStr cid || falsyStr key then .b401
  else if (cs.find? (fun c => some c.id == cid && some c.pin == key)).isSome then .passB
  else .b403

/-- Terminal socket events that can reach the liveness-probe handlers. -/
inductive SockEv where
  | connectEv
  | errorEv
  | timeoutEv
  | closeEv
deriving DecidableEq

/-- A JS promise settles at its first resolve call; later calls are
ignored. -/
def resolveOnce (s : Option Bool) (v : Bool) : Option Bool :=
  some (s.getD v)

/-- State of the Core variant A probe isPrinterOnline
(src/core/server.js lines 98-110): the once-registered handlers, the
promise, and whether the code has called socket.destroy. -/
structure ProbeStA where
  settled : Option Bool := none
  destroyed : Bool := false
  connectFired : Bool := false
  errorFired : Bool := false
  timeoutFired : Bool := false
deriving DecidableEq

def initA : ProbeStA := {}

/-- One socket event against the Core variant A handlers:
once(connect) destroys and resolves true; once(error) and once(timeout)
resolve false without destroying; close has no handler. -/
def stepA (s : ProbeStA) (e : SockEv) : ProbeStA :=
  match e with
  | .connectEv =>
    if s.connectFired then s
    else { s with connectFired := true, destroyed := true, settled := resolveOnce s.settled true }
  | .errorEv =>
    if s.errorFired then s
    else { s with errorFired := true, settled := resolveOnce s.settled false }
  | .timeoutEv =>
    if s.timeoutFired then s
    else { s with timeoutFired := true, settled := resolveOnce s.settled false }
  | .closeEv => s

def runA : ProbeStA → List SockEv → ProbeStA
  | s, [] => s
  | s, e :: t => runA (stepA s e) t

/-- State of the Stable variant probe isPrinterOnline
(src/unnamed/part_000 lines 127-142): an online flag set by the connect
callback, destroy calls, and a promise resolved on close. -/
structure ProbeStP where
  online : Bool := false
  destroyed : Bool := false
  settled : Option Bool := none
  connectFired : Bool := false
deriving DecidableEq

def initP : ProbeStP := {}

/-- One socket event against the Stable variant handlers: the connect
callback sets online and destroys; the error handler is empty; timeout
destroys; close resolves with the current online flag. -/
def stepP (s : ProbeStP) (e : SockEv) : ProbeStP :=
  match e with
  | .connectEv =>
    if s.connectFired then s
    else { s with connectFired := true, online := true, destroyed := true }
  | .errorEv => s
  | .timeoutEv => { s with destroyed := true }
  | .closeEv => { s with settled := resolveOnce s.settled s.online }

def runP : ProbeStP → List SockEv → ProbeStP
  | s, [] => s
  | s, e :: t => runP (stepP s e) t

/-- A JS value as it appears in the invoice request body. -/
inductive JVal where
  | undef
  | nullV
  | boolV (b : Bool)
  | numV (q : ℚ)
  | nanV
  | strV (s : String)
deriving DecidableEq

/-- JS truthiness. -/
def truthy : JVal → Bool
  | .undef => false
  | .nullV => false
  | .boolV b => b
  | .numV q => if q = 0 then false else true
  | .nanV => false
  | .strV s => !(s == "")

/-- JS a || b. -/
def jsOr (a b : JVal) : JVal :=
  if truthy a then a else b

/-- Emit the decimal digits of n in front of acc, consuming one unit of
fuel per digit. -/
def decRun (fuel n : Nat) (acc : List Char) : List Char :=
  match fuel with
  | 0 => acc
  | f + 1 =>
    if n < 10 then Nat.digitChar n :: acc
    else decRun f (n / 10) (Nat.digitChar (n % 10) :: acc)

/-- Decimal rendering of a natural, as JS Number.prototype.toString
produces for integers.  The fuel n + 1 always suffices. -/
def natToDec (n : Nat) : String :=
  (decRun (n + 1) n []).asString

/-- Decimal rendering of an integer. -/
def intToDec (i : Int) : String :=
  if i < 0 then "-" ++ natToDec i.natAbs else natToDec i.natAbs

/-- Value of a list of decimal digit characters. -/
def digitsToNat (l : List Char) : Nat :=
  l.foldl (fun a c => 10 * a + (c.toNat - 48)) 0

/-- Parse an unsigned decimal literal (digits, optionally a dot and
digits); anything else is NaN. -/
def parseDecCore (l : List Char) : Option ℚ :=
  match l.span (fun c => c.isDigit) with
  | (ds, []) => if ds.isEmpty then none else some ((digitsToNat ds : ℚ))
  | (ds, c :: rest) =>
    if c == '.' then
      if rest.all (fun d => d.isDigit) && !(ds.isEmpty && rest.isEmpty) then
        some ((digitsToNat ds : ℚ) + (digitsToNat rest : ℚ) / (10 : ℚ) ^ rest.length)
      else none
    else none

/-- Whitespace trimming on both ends, as String.prototype.trim does
before Number() conversion. -/
def jsTrim (s : String) : String :=
  String.mk
    (((s.data.dropWhile (fun c => c.isWhitespace)).reverse.dropWhile
      (fun c => c.isWhitespace)).reverse)

/-- JS Number() on a string: trimmed empty input is 0, signed decimal
literals parse, anything else is NaN.  (Hex, exponent and Infinity
literals, which no claim exercises, are conservatively mapped to NaN.) -/
def parseNum (s : String) : Option ℚ :=
  let t := jsTrim s
  if t == "" then some 0
  else
    match t.data with
    | '-' :: rest => (parseDecCore rest).map (fun q => -q)
    | '+' :: rest => parseDecCore rest
    | l => parseDecCore l

/-- JS Number() coercion; none models NaN. -/
def jsToNumber : JVal → Option ℚ
  | .undef => none
  | .nullV => some 0
  | .boolV b => some (if b then 1 else 0)
  | .numV q => some q
  | .nanV => none
  | .strV s => parseNum s

/-- JS String() coercion.  Non-integral numbers never reach this
function in the modelled code paths; for them the exact JS
shortest-float printing is not reproduced. -/
def jsToString : JVal → String
  | .undef => "undefined"
  | .nullV => "null"
  | .boolV b => if b then "true" else "false"
  | .nanV => "NaN"
  | .strV s => s
  | .numV q => if q.den = 1 then intToDec q.num else intToDec q.num ++ "/" ++ natToDec q.den

/-- toFixed(2) on a non-negative rational: ECMA picks the integer n
closest to q*100, the larger one at ties, which is the floor of
q*100 + 1/2, and always prints exactly two fraction digits. -/
def fix2 (q : ℚ) : String :=
  natToDec ((Int.floor (q * 100 + 1 / 2)).toNat / 100) ++ "." ++
    String.mk [Nat.digitChar ((Int.floor (q * 100 + 1 / 2)).toNat / 10 % 10),
      Nat.digitChar ((Int.floor (q * 100 + 1 / 2)).toNat % 10)]

/-- JS Number.prototype.toFixed(2); NaN prints as NaN, negative inputs
print a sign before the formatted absolute value. -/
def toFixed2 : Option ℚ → String
  | none => "NaN"
  | some q => if q < 0 then "-" ++ fix2 (-q) else fix2 q

/-- One cell handed to printer.tableCustom. -/
structure RowCol where
  text : String
  cols : Nat
  align : Option String := none
deriving DecidableEq

/-- The fields of a line item that printInvoice reads. -/
structure LineItemJ where
  itemName : JVal := .undef
  qty : JVal := .undef
  total : JVal := .undef
deriving DecidableEq

/-- The four cells of one invoice table row. -/
structure InvoiceRow where
  seqCol : RowCol
  nameCol : RowCol
  qtyCol : RowCol
  totalCol : RowCol
deriving DecidableEq

/-- JS String.prototype.substring(0, k). -/
def substrTo (k : Nat) (s : String) : String :=
  String.mk (s.data.take k)

/-- The row printInvoice emits for the line item at 0-based index i
(src/core/server.js lines 228-239). -/
def rowOf (i : Nat) (it : LineItemJ) : InvoiceRow :=
  { seqCol := { text := jsToString (.numV ((i : ℚ) + 1)), cols := 3 }
  , nameCol := { text := substrTo 18 (jsToString (jsOr it.itemName (.strV ""))), cols := 18 }
  , qtyCol := { text := jsToString (jsOr it.qty (.numV 0)), cols := 4, align := some "RIGHT" }
  , totalCol := { text := toFixed2 (jsToNumber (jsOr it.total (.numV 0))), cols := 7, align := some "RIGHT" } }

/-- What the transport attempt started by rawPrint eventually does. -/
inductive TransportOutcome where
  | delivered
  | failedT (msg : String)
deriving DecidableEq

/-- Response of the Core variant B print route. -/
inductive RespB where
  | okTrue
  | err400 (msg : String)
deriving DecidableEq

/-- printers[pid] lookup on the parsed printer.env map. -/
def findEnvPrinter (qs : List PrinterEnvRec) (pid : String) : Option PrinterEnvRec :=
  qs.find? (fun p => p.id == pid)

/-- POST /print of the Core variant B (src/core/server.js lines
461-471): resolve the id (header, falling back to DEFAULT_PRINTER),
require status enabled, fire rawPrint without awaiting it and answer
ok:true.  The response never depends on the transport outcome, which is
exactly the reporting bug claim C6 is about. -/
def printRouteB (qs : List PrinterEnvRec) (headerPid envDefault : Option String)
    (bodyText : Option String) (outcome : TransportOutcome) : RespB :=
  let pid := if falsyStr headerPid then envDefault else headerPid
  match pid with
  | none => .err400 "Printer unavailable"
  | some s =>
    match findEnvPrinter qs s with
    | none => .err400 "Printer unavailable"
    | some p => if !(p.status == "enabled") then .err400 "Printer unavailable" else .okTrue

/-- Content of the persisted printer file: empty, unparseable, or a
well-formed printers document. -/
inductive PrinterFile where
  | pEmpty
  | pMalformed
  | pDoc (ps : List PrinterRec)
deriving DecidableEq

/-- Content of the persisted client file. -/
inductive ClientFile where
  | cEmpty
  | cMalformed
  | cDoc (cs : List ClientRec)
deriving DecidableEq

/-- loadPrinters of the Stable variant, built on safeRead
(src/unnamed/part_000 lines 66-89): absent file, blank file and parse
failure all fall back to the empty printers document. -/
def loadPrintersP000 (file : Option PrinterFile) : List PrinterRec :=
  match file with
  | none => []
  | some .pEmpty => []
  | some .pMalformed => []
  | some (.pDoc ps) => ps

/-- loadClients of the Stable variant. -/
def loadClientsP000 (file : Option ClientFile) : List ClientRec :=
  match file with
  | none => []
  | some .cEmpty => []
  | some .cMalformed => []
  | some (.cDoc cs) => cs

/-- readPrinters of src/server.js (line 41): JSON.parse(readFileSync(f))
with no guard, so an absent file (readFileSync throws), an empty file or
malformed content (JSON.parse throws) propagate an exception. -/
def readPrintersFinal (file : Option PrinterFile) : Except Unit (List PrinterRec) :=
  match file with
  | none => .error ()
  | some .pEmpty => .error ()
  | some .pMalformed => .error ()
  | some (.pDoc ps) => .ok ps

/-- readClients of src/server.js (line 44), same shape. -/
def readClientsFinal (file : Option ClientFile) : Except Unit (List ClientRec) :=
  match file with
  | none => .error ()
  | some .cEmpty => .error ()
  | some .cMalformed => .error ()
  | some (.cDoc cs) => .ok cs

/-- Case-insensitive string comparison via toLowerCase, as used in the
Core variant A /print lookup (modelled on the character sequences). -/
def lowerEq (a b : String) : Bool :=
  a.data.map Char.toLower == b.data.map Char.toLower

/-- Printer resolution of the Core variant A /print route
(src/core/server.js lines 143-150): enabled records only, id compared
case-insensitively, with an optional-chained case-insensitive name
fallback. -/
def resolveCore (ps : List PrinterRec) (pid : String) : Option PrinterRec :=
  ps.find? (fun p =>
    p.enabled && (lowerEq p.id pid || (match p.name with
      | some n => lowerEq n pid
      | none => false)))

/-- Printer resolution of the Stable variant /print route
(src/unnamed/part_000 lines 291-294): exact id match among enabled
records. -/
def resolveP000 (ps : List PrinterRec) (pid : String) : Option PrinterRec :=
  ps.find? (fun p => p.id == pid && p.enabled)

/-- Result of the Stable variant /print route, up to the transport:
either an error response or a dispatch of the given text to the
resolved printer. -/
inductive RouteOutP where
  | badReq (msg : String)
  | notFound (msg : String)
  | dispatched (p : PrinterRec) (text : String)
deriving DecidableEq

/-- POST /print of the Stable variant (src/unnamed/part_000 lines
279-302): printer id from the header or the body, text required,
then resolution; a failed resolution answers 404 before any transport
work happens. -/
def printRouteP000 (ps : List PrinterRec) (headerPid bodyPid bodyText : Option String) : RouteOutP :=
  if falsyStr (if falsyStr headerPid then bodyPid else headerPid) || falsyStr bodyText then
    .badReq "printerId or text missing"
  else
    match resolveP000 ps ((if falsyStr headerPid then bodyPid else headerPid).getD "") with
    | none => .notFound "Printer not found or disabled"
    | some p => .dispatched p (bodyText.getD "")

/-- Math.floor(100000 + Math.random() * 900000) with the random draw r
made explicit. -/
def pinFrom (r : ℚ) : Nat :=
  (Int.floor ((100000 : ℚ) + r * 900000)).toNat

/-- POST /api/client/create of the Stable variant (src/unnamed/part_000
lines 175-192): mints id and pin, stores role CLIENT, enabled true and a
creation timestamp, and appends to the persisted client list. -/
def createP000 (cs : List ClientRec) (suffix : String) (r : ℚ) (now : String) :
    ClientRec × List ClientRec :=
  let c : ClientRec :=
    { id := "clt-" ++ suffix
    , pin := natToDec (pinFrom r)
    , role := some "CLIENT"
    , enabled := some true
    , createdAt := some now }
  (c, cs ++ [c])

/-- POST /api/client/create of the Core variant B (src/core/server.js
lines 407-417): mints id and pin only and pushes the bare pair; no
enabled flag, role or timestamp is stored. -/
def createB (cs : List ClientRec) (suffix : String) (r : ℚ) : ClientRec × List ClientRec :=
  let c : ClientRec := { id := "clt-" ++ suffix, pin := natToDec (pinFrom r) }
  (c, cs ++ [c])

/-- Fixture: a CASHIER printer record. -/
def cashRec (i : String) (en : Bool) : PrinterRec :=
  { id := i, role := "CASHIER", enabled := en }

/-- Fixture: a registry holding three disabled CASHIER printers. -/
def regDisabledCash : List PrinterRec :=
  [cashRec "c1" false, cashRec "c2" false, cashRec "c3" false]

/-- Fixture: a CASHIER printer.env record of the Core variant B. -/
def envCash (i : String) : PrinterEnvRec :=
  { id := i, role := "CASHIER", status := "disabled" }

/-- Fixture: an enabled client record. -/
def demoClient : ClientRec :=
  { id := "c1", pin := "111111", enabled := some true }

/-! ## Helper lemmas -/

theorem decRun_len (k : Nat) : ∀ (fuel n : Nat) (acc : List Char), k < fuel →
    10 ^ k ≤ n → n < 10 ^ (k + 1) → (decRun fuel n acc).length = (k + 1) + acc.length := by
  induction k with
  | zero =>
    intro fuel n acc hf h1 h2
    match fuel, hf with
    | f + 1, _ =>
      simp only [decRun]
      rw [if_pos (by omega)]
      simp only [List.length_cons]
      omega
  | succ k ih =>
    intro fuel n acc hf h1 h2
    match fuel, hf with
    | f + 1, _ =>
      simp only [decRun]
      rw [if_neg (by
        have h10 : (10 : Nat) ≤ 10 ^ (k + 1) := by
          calc (10 : Nat) = 10 ^ 1 := by norm_num
          _ ≤ 10 ^ (k + 1) := Nat.pow_le_pow_right (by norm_num) (by omega)
        omega)]
      have hd1 : 10 ^ k ≤ n / 10 := by
        rw [Nat.le_div_iff_mul_le (by norm_num)]
        calc 10 ^ k * 10 = 10 ^ (k + 1) := by ring
        _ ≤ n := h1
      have hd2 : n / 10 < 10 ^ (k + 1) := by
        rw [Nat.div_lt_iff_lt_mul (by norm_num)]
        calc n < 10 ^ (k + 1 + 1) := h2
        _ = 10 ^ (k + 1) * 10 := by ring
      have := ih f (n / 10) (Nat.digitChar (n % 10) :: acc) (by omega) hd1 hd2
      rw [this]
      simp only [List.length_cons]
      omega

theorem natToDec_len6 (n : Nat) (h1 : 100000 ≤ n) (h2 : n ≤ 999999) :
    (natToDec n).length = 6 := by
  have := decRun_len 5 (n + 1) n [] (by omega) (by norm_num; omega) (by norm_num; omega)
  simpa [natToDec] using this

theorem find_set_findIdx {α : Type} (l : List α) (q : α → Bool) (p : α)
    (hp : q p = true) (h : l.any q = true) :
    (l.set (l.findIdx q) p).find? q = some p := by
  induction l with
  | nil => simp at h
  | cons a t ih =>
    by_cases hqa : q a = true
    · simp [List.findIdx_cons, hqa, List.find?_cons, hp]
    · have hqa' : q a = false := by simpa using hqa
      have ht : t.any q = true := by simpa [hqa'] using h
      simp [List.findIdx_cons, hqa', List.find?_cons, ih ht]

theorem findIdx?_none_of_find?_none {α : Type} (l : List α) (q : α → Bool)
    (h : l.find? q = none) : l.findIdx? q = none := by
  rw [List.findIdx?_eq_none_iff]
  intro x hx
  have := List.find?_eq_none.mp h x hx
  simpa using this

theorem findIdx?_some_of_mem {α : Type} (l : List α) (q : α → Bool) (r : α)
    (hr : r ∈ l) (hq : q r = true) : ∃ i, l.findIdx? q = some i := by
  cases hfi : l.findIdx? q with
  | some i => exact ⟨i, rfl⟩
  | none =>
    exfalso
    have := List.findIdx?_eq_none_iff.mp hfi r hr
    rw [hq] at this
    exact Bool.noConfusion this

/-! ## C1: role quota on saving a new printer -/

/-- C1 counterexample: the registry holds three DISABLED CASHIER
printers, so fewer than 3 enabled CASHIER records exist; the claim says
the save of a new CASHIER printer must then succeed and append, but
src/server.js counts all records of the role regardless of the enabled
flag and rejects the save, leaving the registry unchanged. -/
theorem c1_counterexample :
    (regDisabledCash.filter (fun x => x.enabled && x.role == "CASHIER")).length = 0 ∧
    saveFinal regDisabledCash (cashRec "c4" true) =
      (.errResp "Max Cashier printers reached", regDisabledCash) := by
  constructor
  · decide
  · decide

/-- C1 (amended): for a record whose id is new, the quota counts ALL
current records with the matching role, enabled or not; src/server.js
applies the limit only to the roles CASHIER and KITCHEN (any other role
appends without limit), while the Core variant B applies the 3-per-role
limit to every role.  On rejection nothing is written; below the limit
the record is appended and persisted. -/
theorem c1_quota_counts_all_records :
    (∀ (ps : List PrinterRec) (p : PrinterRec),
      ps.find? (fun x => x.id == p.id) = none →
      ((p.role = "CASHIER" ∧ 3 ≤ countRole ps "CASHIER") ∨
       (p.role = "KITCHEN" ∧ 3 ≤ countRole ps "KITCHEN") →
        ∃ m, saveFinal ps p = (.errResp m, ps)) ∧
      (¬(p.role = "CASHIER" ∧ 3 ≤ countRole ps "CASHIER") →
       ¬(p.role = "KITCHEN" ∧ 3 ≤ countRole ps "KITCHEN") →
        saveFinal ps p = (.okResp, ps ++ [p]))) ∧
    (∀ (qs : List PrinterEnvRec) (q : PrinterEnvRec),
      qs.find? (fun x => x.id == q.id) = none →
      (3 ≤ countRoleB qs q.role →
        saveB qs q = (.errResp "Max 3 printers per role", qs)) ∧
      (countRoleB qs q.role < 3 →
        saveB qs q = (.okResp, qs ++ [q]))) := by
  constructor
  · intro ps p hnone
    have hisn : (ps.find? (fun x => x.id == p.id)).isNone = true := by
      rw [hnone]; rfl
    constructor
    · rintro (⟨hr, hc⟩ | ⟨hr, hc⟩)
      · refine ⟨"Max Cashier printers reached", ?_⟩
        unfold saveFinal
        rw [if_pos hisn, if_pos ⟨hr, hc⟩]
      · refine ⟨"Max Kitchen printers reached", ?_⟩
        unfold saveFinal
        rw [if_pos hisn, if_neg (by rintro ⟨h1, _⟩; rw [hr] at h1; exact absurd h1 (by decide)),
          if_pos ⟨hr, hc⟩]
    · intro h1 h2
      unfold saveFinal
      rw [if_pos hisn, if_neg h1, if_neg h2]
  · intro qs q hnone
    have hisn : (qs.find? (fun x => x.id == q.id)).isNone = true := by
      rw [hnone]; rfl
    have hidx : qs.findIdx? (fun x => x.id == q.id) = none :=
      findIdx?_none_of_find?_none _ _ hnone
    constructor
    · intro hc
      unfold saveB
      rw [if_pos ⟨hisn, hc⟩]
    · intro hc
      unfold saveB
      rw [if_neg (by rintro ⟨_, h3⟩; omega)]
      rw [hidx]

/-- C1 witness: a new CASHIER record saves into the empty registry, and
a fourth record of a role already held by three records (disabled ones
included) is rejected by the Core variant B save. -/
theorem c1_witness :
    saveFinal [] (cashRec "n1" true) = (.okResp, [cashRec "n1" true]) ∧
    saveB [envCash "e1", envCash "e2", envCash "e3"] (envCash "e4") =
      (.errResp "Max 3 printers per role", [envCash "e1", envCash "e2", envCash "e3"]) := by
  constructor
  · exact (c1_quota_counts_all_records.1 [] (cashRec "n1" true) rfl).2
      (by decide) (by decide)
  · exact (c1_quota_counts_all_records.2 [envCash "e1", envCash "e2", envCash "e3"]
      (envCash "e4") (by decide)).1 (by decide)

/-! ## C2: upsert of an existing id -/

/-- C2: when the record id already exists, both save variants succeed
unconditionally (no quota branch is reachable on that path, whatever the
role counts are), the registry keeps its length, and looking the id up
afterwards yields exactly the supplied record. -/
theorem c2_upsert_unconditional :
    (∀ (ps : List PrinterRec) (p : PrinterRec),
      (∃ r ∈ ps, r.id = p.id) →
      (saveFinal ps p).1 = .okResp ∧
      (saveFinal ps p).2.length = ps.length ∧
      (saveFinal ps p).2.find? (fun x => x.id == p.id) = some p) ∧
    (∀ (qs : List PrinterEnvRec) (q : PrinterEnvRec),
      (∃ r ∈ qs, r.id = q.id) →
      (saveB qs q).1 = .okResp ∧
      (saveB qs q).2.length = qs.length ∧
      (saveB qs q).2.find? (fun x => x.id == q.id) = some q) := by
  constructor
  · intro ps p h
    obtain ⟨r, hr, hid⟩ := h
    have hany : ps.any (fun x => x.id == p.id) = true :=
      List.any_eq_true.mpr ⟨r, hr, by simp [hid]⟩
    have hs : (ps.find? (fun x => x.id == p.id)).isSome = true :=
      List.find?_isSome.mpr ⟨r, hr, by simp [hid]⟩
    have hisn : (ps.find? (fun x => x.id == p.id)).isNone = false := by
      cases hfind : ps.find? (fun x => x.id == p.id) with
      | none => rw [hfind] at hs; exact absurd hs (by decide)
      | some v => rfl
    have heq : saveFinal ps p =
        (.okResp, ps.set (ps.findIdx (fun x => x.id == p.id)) p) := by
      unfold saveFinal
      rw [hisn]
      simp
    refine ⟨by rw [heq], by rw [heq]; exact List.length_set .., ?_⟩
    rw [heq]
    exact find_set_findIdx ps _ p (by simp) hany
  · intro qs q h
    obtain ⟨r, hr, hid⟩ := h
    have hany : qs.any (fun x => x.id == q.id) = true :=
      List.any_eq_true.mpr ⟨r, hr, by simp [hid]⟩
    have hs : (qs.find? (fun x => x.id == q.id)).isSome = true :=
      List.find?_isSome.mpr ⟨r, hr, by simp [hid]⟩
    have hisn : (qs.find? (fun x => x.id == q.id)).isNone = false := by
      cases hfind : qs.find? (fun x => x.id == q.id) with
      | none => rw [hfind] at hs; exact absurd hs (by decide)
      | some v => rfl
    obtain ⟨i, hi⟩ := findIdx?_some_of_mem qs (fun x => x.id == q.id) r hr (by simp [hid])
    have hidx : qs.findIdx (fun x => x.id == q.id) = i :=
      (List.findIdx?_eq_some_iff_findIdx_eq.mp hi).2
    have heq : saveB qs q = (.okResp, qs.set i q) := by
      unfold saveB
      rw [if_neg (by rintro ⟨h1, _⟩; rw [hisn] at h1; exact absurd h1 (by decide)), hi]
    refine ⟨by rw [heq], by rw [heq]; exact List.length_set .., ?_⟩
    rw [heq, ← hidx]
    exact find_set_findIdx qs _ q (by simp) hany

/-- C2 witness: upserting the id c2 in a registry that already holds
three enabled CASHIER printers succeeds and stores the supplied record,
quota notwithstanding. -/
theorem c2_witness :
    (saveFinal [cashRec "c1" true, cashRec "c2" true, cashRec "c3" true]
        (cashRec "c2" false)).1 = .okResp ∧
    (saveFinal [cashRec "c1" true, cashRec "c2" true, cashRec "c3" true]
        (cashRec "c2" false)).2.find? (fun x => x.id == (cashRec "c2" false).id) =
      some (cashRec "c2" false) := by
  have h := c2_upsert_unconditional.1
    [cashRec "c1" true, cashRec "c2" true, cashRec "c3" true] (cashRec "c2" false)
    ⟨cashRec "c2" true, by decide, rfl⟩
  exact ⟨h.1, h.2.2⟩

theorem filter_set_eq {α : Type} : ∀ (l : List α) (i : Nat) (a b : α) (pr : α → Bool),
    l[i]? = some b → pr b = false → pr a = false →
    (l.set i a).filter pr = l.filter pr := by
  intro l
  induction l with
  | nil => intro i a b pr h hb ha; simp at h
  | cons x t ih =>
    intro i a b pr h hb ha
    cases i with
    | zero =>
      have hx : x = b := by simpa using h
      subst hx
      rw [List.set_cons_zero]
      simp [List.filter_cons, hb, ha]
    | succ i =>
      have ht : t[i]? = some b := by simpa using h
      rw [List.set_cons_succ]
      cases hx : pr x <;> simp [List.filter_cons, hx, ih i a b pr ht hb ha]

/-! ## C10: frame of save and delete on the registry -/

/-- C10: replacing an existing id rewrites exactly the record at its
original position (every other position is untouched and the length is
kept); saving a new id appends at the end, leaving every existing
position untouched; delete keeps exactly the records with a different
id, in their original order; and the quota-checking save of
src/server.js also never touches records whose id differs from the
target, in any of its branches. -/
theorem c10_save_delete_frame :
    (∀ (ps : List PrinterRec) (p : PrinterRec) (i : Nat),
      ps.findIdx? (fun x => x.id == p.id) = some i →
      saveP000 ps p = ps.set i p ∧
      (saveP000 ps p).length = ps.length ∧
      ∀ j, j ≠ i → (saveP000 ps p)[j]? = ps[j]?) ∧
    (∀ (ps : List PrinterRec) (p : PrinterRec),
      ps.findIdx? (fun x => x.id == p.id) = none →
      saveP000 ps p = ps ++ [p] ∧
      ∀ j, j < ps.length → (saveP000 ps p)[j]? = ps[j]?) ∧
    (∀ (ps : List PrinterRec) (idv : String),
      (deleteP000 ps idv).Sublist ps ∧
      (∀ r ∈ ps, r.id ≠ idv → r ∈ deleteP000 ps idv) ∧
      (∀ r ∈ deleteP000 ps idv, r ∈ ps ∧ r.id ≠ idv)) ∧
    (∀ (ps : List PrinterRec) (p : PrinterRec),
      (saveFinal ps p).2.filter (fun r => !(r.id == p.id)) =
        ps.filter (fun r => !(r.id == p.id))) := by
  refine ⟨?_, ?_, ?_, ?_⟩
  · intro ps p i h
    have he : saveP000 ps p = ps.set i p := by unfold saveP000; rw [h]
    exact ⟨he, by rw [he]; exact List.length_set .., fun j hj => by
      rw [he]; exact List.getElem?_set_ne (Ne.symm hj)⟩
  · intro ps p h
    have he : saveP000 ps p = ps ++ [p] := by unfold saveP000; rw [h]
    exact ⟨he, fun j hj => by rw [he]; exact List.getElem?_append_left hj⟩
  · intro ps idv
    refine ⟨List.filter_sublist _, fun r hr hne => List.mem_filter.mpr ⟨hr, by simp [hne]⟩,
      fun r hr => ?_⟩
    have := List.mem_filter.mp hr
    exact ⟨this.1, by simpa using this.2⟩
  · intro ps p
    by_cases hn : (ps.find? (fun x => x.id == p.id)).isNone = true
    · unfold saveFinal
      rw [if_pos hn]
      by_cases h1 : p.role = "CASHIER" ∧ 3 ≤ countRole ps "CASHIER"
      · rw [if_pos h1]
      · rw [if_neg h1]
        by_cases h2 : p.role = "KITCHEN" ∧ 3 ≤ countRole ps "KITCHEN"
        · rw [if_pos h2]
        · rw [if_neg h2]
          simp [List.filter_append]
    · unfold saveFinal
      rw [if_neg hn]
      have hsome : ∃ x ∈ ps, (x.id == p.id) = true := by
        cases hfind : ps.find? (fun x => x.id == p.id) with
        | none => rw [hfind] at hn; exact absurd rfl hn
        | some v =>
          refine ⟨v, List.mem_of_find?_eq_some hfind, ?_⟩
          exact List.find?_some (p := fun (x : PrinterRec) => x.id == p.id) hfind
      have hlt : ps.findIdx (fun x => x.id == p.id) < ps.length :=
        List.findIdx_lt_length.mpr hsome
      have hb : (ps[ps.findIdx (fun x => x.id == p.id)].id == p.id) = true :=
        List.findIdx_getElem (w := hlt)
      exact filter_set_eq ps _ p _ _ (List.getElem?_eq_getElem hlt)
        (by simp [hb]) (by simp)

/-- C10 witness: a registry of two printers; replacing the second
record keeps the first position untouched, and deleting an id keeps the
other record. -/
theorem c10_witness :
    saveP000 [cashRec "a" true, cashRec "b" true] (cashRec "b" false) =
      [cashRec "a" true, cashRec "b" false] ∧
    (saveP000 [cashRec "a" true, cashRec "b" true] (cashRec "b" false))[0]? =
      some (cashRec "a" true) ∧
    cashRec "a" true ∈ deleteP000 [cashRec "a" true, cashRec "b" true] "b" := by
  have h1 := (c10_save_delete_frame.1 [cashRec "a" true, cashRec "b" true]
    (cashRec "b" false) 1 (by decide))
  have h3 := (c10_save_delete_frame.2.2.1 [cashRec "a" true, cashRec "b" true] "b").2.1
    (cashRec "a" true) (by decide) (by decide)
  refine ⟨?_, ?_, h3⟩
  · rw [h1.1]; decide
  · rw [h1.2.2 0 (by decide)]; decide

/-! ## C3: auth gate -/

/-- C3 counterexample: with auth enabled, the Stable variant answers 403
with DIFFERENT bodies for a wrong key versus an unknown client, so the
response does reveal which sub-condition failed; and in src/server.js a
correct client id with a wrong key yields 401 Unauthorized, not a
Forbidden outcome. -/
theorem c3_counterexample :
    authRequiredP000 true [demoClient] (some "c1") (some "000000") =
      .e403 "Invalid Print Key" ∧
    authRequiredP000 true [demoClient] (some "zz") (some "000000") =
      .e403 "Client not allowed" ∧
    AuthOutP.e403 "Invalid Print Key" ≠ AuthOutP.e403 "Client not allowed" ∧
    authCheckFinal true [demoClient] (some "c1") (some "000000") = .fail401 := by
  refine ⟨by decide, by decide, by decide, by decide⟩

/-- C3 (amended): with the flag disabled both gates always pass.  With
it enabled, the Stable variant fails 401 exactly when the client id or
key header is absent or empty, and fails 403 in the three sub-cases —
with the message Client not allowed for an unknown or disabled client
but the distinct message Invalid Print Key for a wrong key; on full
match it passes with the client.  src/server.js instead answers the
single 401 Unauthorized outcome for every failing request, and passes
exactly when some stored client matches id, pin and enabled. -/
theorem c3_auth_gate :
    (∀ cs cid key, authRequiredP000 false cs cid key = .okNoAuth) ∧
    (∀ cs cid key, authCheckFinal false cs cid key = .passF) ∧
    (∀ cs cid key, (falsyStr cid || falsyStr key) = true →
      authRequiredP000 true cs cid key = .e401 "Client ID / Print Key missing") ∧
    (∀ cs cid key, (falsyStr cid || falsyStr key) = false →
      (cs.find? (fun c => some c.id == cid) = none →
        authRequiredP000 true cs cid key = .e403 "Client not allowed") ∧
      (∀ c, cs.find? (fun c => some c.id == cid) = some c →
        (¬c.enabled = some true →
          authRequiredP000 true cs cid key = .e403 "Client not allowed") ∧
        (c.enabled = some true → key ≠ some c.pin →
          authRequiredP000 true cs cid key = .e403 "Invalid Print Key") ∧
        (c.enabled = some true → key = some c.pin →
          authRequiredP000 true cs cid key = .okClient c))) ∧
    (∀ cs cid key, authCheckFinal true cs cid key = .fail401 ↔
      ∀ c ∈ cs,
        ¬(some c.id == cid && some c.pin == key && c.enabled == some true) = true) := by
  refine ⟨?_, ?_, ?_, ?_, ?_⟩
  · intro cs cid key
    simp [authRequiredP000]
  · intro cs cid key
    simp [authCheckFinal]
  · intro cs cid key h
    simp [authRequiredP000, h]
  · intro cs cid key h
    constructor
    · intro hfind
      simp [authRequiredP000, h, hfind]
    · intro c hfind
      refine ⟨?_, ?_, ?_⟩
      · intro hen
        have hen' : (c.enabled == some true) = false := by
          simp [hen]
        simp [authRequiredP000, h, hfind, hen']
      · intro hen hkey
        have hkey' : (some c.pin == key) = false := by
          simp
          exact fun hk => hkey hk.symm
        simp [authRequiredP000, h, hfind, hen, hkey']
      · intro hen hkey
        subst hkey
        simp [authRequiredP000, h, hfind, hen]
  · intro cs cid key
    constructor
    · intro hres c hc hpred
      have hs : (cs.find? (fun c => some c.id == cid && some c.pin == key &&
          c.enabled == some true)).isSome = true :=
        List.find?_isSome.mpr ⟨c, hc, hpred⟩
      rw [authCheckFinal] at hres
      simp [hs] at hres
    · intro hall
      have hn : cs.find? (fun c => some c.id == cid && some c.pin == key &&
          c.enabled == some true) = none :=
        List.find?_eq_none.mpr hall
      rw [authCheckFinal]
      simp [hn]

/-- C3 witness: a correct id and key pass the Stable gate; the disabled
flag passes both gates with no client data at all; a missing id header
yields 401; the empty client store fails the src/server.js gate. -/
theorem c3_witness :
    authRequiredP000 true [demoClient] (some "c1") (some "111111") = .okClient demoClient ∧
    authRequiredP000 false [] none none = .okNoAuth ∧
    authRequiredP000 true [demoClient] none (some "111111") =
      .e401 "Client ID / Print Key missing" ∧
    authCheckFinal true [] (some "x") (some "y") = .fail401 := by
  refine ⟨?_, c3_auth_gate.1 [] none none,
    c3_auth_gate.2.2.1 [demoClient] none (some "111111") (by decide), ?_⟩
  · exact ((c3_auth_gate.2.2.2.1 [demoClient] (some "c1") (some "111111")
      (by decide)).2 demoClient (by decide)).2.2 (by decide) (by decide)
  · exact (c3_auth_gate.2.2.2.2 [] (some "x") (some "y")).mpr
      (by intro c hc; exact absurd hc (List.not_mem_nil c))

theorem runA_settled_persist : ∀ (t : List SockEv) (s : ProbeStA) (v : Bool),
    s.settled = some v → (runA s t).settled = some v := by
  intro t
  induction t with
  | nil => intro s v h; exact h
  | cons e t ih =>
    intro s v h
    have hs : (stepA s e).settled = some v := by
      cases e <;> simp only [stepA] <;> (try split) <;> simp [resolveOnce, h]
    exact ih _ v hs

theorem runA_destroyed_persist : ∀ (t : List SockEv) (s : ProbeStA),
    s.destroyed = true → (runA s t).destroyed = true := by
  intro t
  induction t with
  | nil => intro s h; exact h
  | cons e t ih =>
    intro s h
    have hs : (stepA s e).destroyed = true := by
      cases e <;> simp only [stepA] <;> (try split) <;> simp [h]
    exact ih _ hs

theorem runA_settled_head : ∀ (t : List SockEv),
    (runA initA t).settled =
      (t.find? (fun e => !(e == SockEv.closeEv))).map (fun e => e == SockEv.connectEv) := by
  intro t
  induction t with
  | nil => simp [runA, initA]
  | cons e t ih =>
    cases e with
    | closeEv =>
      have hstep : stepA initA .closeEv = initA := rfl
      simp only [runA, hstep, List.find?_cons]
      simpa using ih
    | connectEv =>
      have hs := runA_settled_persist t (stepA initA .connectEv) true (by rfl)
      simp only [runA]
      rw [hs]
      rfl
    | errorEv =>
      have hs := runA_settled_persist t (stepA initA .errorEv) false (by rfl)
      simp only [runA]
      rw [hs]
      rfl
    | timeoutEv =>
      have hs := runA_settled_persist t (stepA initA .timeoutEv) false (by rfl)
      simp only [runA]
      rw [hs]
      rfl

theorem runA_destroyed_iff : ∀ (t : List SockEv) (s : ProbeStA),
    s.destroyed = false → s.connectFired = false →
    ((runA s t).destroyed = true ↔ SockEv.connectEv ∈ t) := by
  intro t
  induction t with
  | nil => intro s h1 h2; simp [runA, h1]
  | cons e t ih =>
    intro s h1 h2
    cases e with
    | connectEv =>
      have hstep : (stepA s .connectEv).destroyed = true := by
        simp [stepA, h2]
      simp only [runA]
      rw [runA_destroyed_persist t _ hstep]
      simp
    | errorEv =>
      have := ih (stepA s .errorEv)
        (by simp only [stepA]; split <;> simp [h1])
        (by simp only [stepA]; split <;> simp [h2])
      simp only [runA, this]
      simp
    | timeoutEv =>
      have := ih (stepA s .timeoutEv)
        (by simp only [stepA]; split <;> simp [h1])
        (by simp only [stepA]; split <;> simp [h2])
      simp only [runA, this]
      simp
    | closeEv =>
      have hstep : stepA s .closeEv = s := rfl
      simp only [runA, hstep, ih s h1 h2]
      simp

theorem runP_settled_persist : ∀ (t : List SockEv) (s : ProbeStP) (v : Bool),
    s.settled = some v → (runP s t).settled = some v := by
  intro t
  induction t with
  | nil => intro s v h; exact h
  | cons e t ih =>
    intro s v h
    have hs : (stepP s e).settled = some v := by
      cases e <;> simp only [stepP] <;> (try split) <;> simp [resolveOnce, h]
    exact ih _ v hs

theorem runP_no_close : ∀ (t : List SockEv) (s : ProbeStP),
    SockEv.closeEv ∉ t → (runP s t).settled = s.settled := by
  intro t
  induction t with
  | nil => intro s h; rfl
  | cons e t ih =>
    intro s h
    have he : e ≠ SockEv.closeEv := fun hc => h (hc ▸ List.mem_cons_self e t)
    have ht : SockEv.closeEv ∉ t := fun hc => h (List.mem_cons_of_mem e hc)
    have hs : (stepP s e).settled = s.settled := by
      cases e with
      | closeEv => exact absurd rfl he
      | connectEv => simp only [stepP]; split <;> rfl
      | errorEv => rfl
      | timeoutEv => rfl
    simp only [runP, ih _ ht, hs]

theorem runP_destroyed_persist : ∀ (t : List SockEv) (s : ProbeStP),
    s.destroyed = true → (runP s t).destroyed = true := by
  intro t
  induction t with
  | nil => intro s h; exact h
  | cons e t ih =>
    intro s h
    have hs : (stepP s e).destroyed = true := by
      cases e <;> simp only [stepP] <;> (try split) <;> simp [h]
    exact ih _ hs

theorem runP_cons (s : ProbeStP) (e : SockEv) (t : List SockEv) :
    runP s (e :: t) = runP (stepP s e) t := rfl

theorem runP_close_resolves : ∀ (t₁ : List SockEv) (t₂ : List SockEv) (s : ProbeStP),
    SockEv.closeEv ∉ t₁ → s.settled = none → (s.connectFired = true → s.online = true) →
    (runP s (t₁ ++ SockEv.closeEv :: t₂)).settled =
      some (s.online || decide (SockEv.connectEv ∈ t₁)) := by
  intro t₁
  induction t₁ with
  | nil =>
    intro t₂ s hno hset hinv
    have hstep : (stepP s .closeEv).settled = some s.online := by
      simp [stepP, resolveOnce, hset]
    rw [List.nil_append, runP_cons]
    rw [runP_settled_persist t₂ _ s.online hstep]
    simp
  | cons e t₁ ih =>
    intro t₂ s hno hset hinv
    have he : e ≠ SockEv.closeEv := fun hc => hno (hc ▸ List.mem_cons_self e t₁)
    have ht : SockEv.closeEv ∉ t₁ := fun hc => hno (List.mem_cons_of_mem e hc)
    cases e with
    | closeEv => exact absurd rfl he
    | connectEv =>
      by_cases hcf : s.connectFired = true
      · have hon : s.online = true := hinv hcf
        have hstep : stepP s .connectEv = s := by
          simp [stepP, hcf]
        rw [List.cons_append, runP_cons, hstep]
        rw [ih t₂ s ht hset hinv]
        simp [hon]
      · have hcf2 : s.connectFired = false := by simpa using hcf
        have hstep : stepP s .connectEv =
            { s with connectFired := true, online := true, destroyed := true } := by
          simp [stepP, hcf2]
        rw [List.cons_append, runP_cons, hstep]
        rw [ih t₂ { s with connectFired := true, online := true, destroyed := true }
          ht hset (fun _ => rfl)]
        simp
    | errorEv =>
      rw [List.cons_append, runP_cons]
      rw [show stepP s .errorEv = s from rfl]
      rw [ih t₂ s ht hset hinv]
      simp
    | timeoutEv =>
      rw [List.cons_append, runP_cons]
      rw [show stepP s .timeoutEv = { s with destroyed := true } from rfl]
      rw [ih t₂ { s with destroyed := true } ht hset hinv]
      simp

theorem runP_destroyed_iff : ∀ (t : List SockEv) (s : ProbeStP),
    s.destroyed = false → s.connectFired = false →
    ((runP s t).destroyed = true ↔ (SockEv.connectEv ∈ t ∨ SockEv.timeoutEv ∈ t)) := by
  intro t
  induction t with
  | nil => intro s h1 h2; simp [runP, h1]
  | cons e t ih =>
    intro s h1 h2
    cases e with
    | connectEv =>
      have hstep : (stepP s .connectEv).destroyed = true := by
        simp [stepP, h2]
      rw [runP_cons, runP_destroyed_persist t _ hstep]
      simp
    | timeoutEv =>
      have hstep : (stepP s .timeoutEv).destroyed = true := by
        simp [stepP]
      rw [runP_cons, runP_destroyed_persist t _ hstep]
      simp
    | errorEv =>
      rw [runP_cons, show stepP s .errorEv = s from rfl, ih s h1 h2]
      simp
    | closeEv =>
      have h1' : (stepP s .closeEv).destroyed = false := h1
      have h2' : (stepP s .closeEv).connectFired = false := h2
      rw [runP_cons, ih _ h1' h2']
      simp

/-! ## C4: liveness probe -/

/-- C4 counterexample: in the Core variant A probe a timeout event
settles the promise at false — the result is known — but the code has
not destroyed the socket (socket.destroy is called only in the connect
handler), contradicting the claim that the probe closes the socket
itself once the result is known. -/
theorem c4_counterexample :
    (runA initA [SockEv.timeoutEv]).settled = some false ∧
    (runA initA [SockEv.timeoutEv]).destroyed = false := by
  exact ⟨rfl, rfl⟩

/-- C4 (amended): both probe variants never raise and settle their
promise at most once, and the settled value is true exactly when the
connect event wins: in the Core variant A the first terminal event
(connect, error or timeout) decides the settled value and the socket is
destroyed exactly when a connect event occurred — after an error or
timeout the probe resolves false WITHOUT destroying the socket; the
Stable variant resolves only when the socket closes, with the value
recording whether the connect callback ran before the close, and it
destroys the socket on the connect and timeout paths. -/
theorem c4_probe_events :
    (∀ t, (runA initA t).settled =
      (t.find? (fun e => !(e == SockEv.closeEv))).map (fun e => e == SockEv.connectEv)) ∧
    (∀ t, ((runA initA t).destroyed = true ↔ SockEv.connectEv ∈ t)) ∧
    (∀ t, SockEv.closeEv ∉ t → (runP initP t).settled = none) ∧
    (∀ t₁ t₂, SockEv.closeEv ∉ t₁ →
      (runP initP (t₁ ++ SockEv.closeEv :: t₂)).settled =
        some (decide (SockEv.connectEv ∈ t₁))) ∧
    (∀ t, ((runP initP t).destroyed = true ↔
      (SockEv.connectEv ∈ t ∨ SockEv.timeoutEv ∈ t))) := by
  refine ⟨runA_settled_head, ?_, ?_, ?_, ?_⟩
  · intro t
    exact runA_destroyed_iff t initA rfl rfl
  · intro t h
    rw [runP_no_close t initP h]
    rfl
  · intro t₁ t₂ h
    have := runP_close_resolves t₁ t₂ initP h rfl (by intro hc; exact absurd hc (by decide))
    simpa using this
  · intro t
    exact runP_destroyed_iff t initP rfl rfl

/-- C4 witness: a handshake followed by the close event settles the
Stable probe at true; an error event settles the Core variant A probe
at false; a probe that saw no close event has not resolved in the
Stable variant. -/
theorem c4_witness :
    (runP initP [SockEv.connectEv, SockEv.closeEv]).settled = some true ∧
    (runA initA [SockEv.errorEv]).settled = some false ∧
    (runP initP [SockEv.timeoutEv]).settled = none := by
  refine ⟨?_, ?_, ?_⟩
  · have h := c4_probe_events.2.2.2.1 [SockEv.connectEv] [] (by decide)
    simpa using h
  · have h := c4_probe_events.1 [SockEv.errorEv]
    simpa using h
  · exact c4_probe_events.2.2.1 [SockEv.timeoutEv] (by decide)

theorem jsToString_natCast (n : Nat) : jsToString (.numV ((n : ℚ))) = natToDec n := by
  simp only [jsToString]
  rw [if_pos (Rat.den_natCast n), Rat.num_natCast]
  simp only [intToDec]
  rw [if_neg (by omega), Int.natAbs_ofNat]

theorem toFixed2_zero_eval : toFixed2 (some 0) = "0.00" := by
  have h : Int.floor ((0 : ℚ) * 100 + 1 / 2) = 0 := by norm_num [Rat.floor_def]
  simp only [toFixed2, fix2]
  rw [if_neg (by norm_num), h]
  rfl

theorem toFixed2_round_eval : toFixed2 (some (19999 / 1000)) = "20.00" := by
  have h : Int.floor ((19999 / 1000 : ℚ) * 100 + 1 / 2) = 2000 := by norm_num [Rat.floor_def]
  simp only [toFixed2, fix2]
  rw [if_neg (by norm_num), h]
  rfl

theorem toFixed2_two_decimals (q : ℚ) :
    ∃ a b, toFixed2 (some q) = a ++ "." ++ b ∧ b.length = 2 := by
  simp only [toFixed2, fix2]
  by_cases hq : q < 0
  · rw [if_pos hq]
    refine ⟨"-" ++ natToDec ((Int.floor ((-q) * 100 + 1 / 2)).toNat / 100),
      String.mk [Nat.digitChar ((Int.floor ((-q) * 100 + 1 / 2)).toNat / 10 % 10),
        Nat.digitChar ((Int.floor ((-q) * 100 + 1 / 2)).toNat % 10)], ?_, rfl⟩
    simp only [String.append_assoc]
  · rw [if_neg hq]
    exact ⟨natToDec ((Int.floor (q * 100 + 1 / 2)).toNat / 100),
      String.mk [Nat.digitChar ((Int.floor (q * 100 + 1 / 2)).toNat / 10 % 10),
        Nat.digitChar ((Int.floor (q * 100 + 1 / 2)).toNat % 10)], rfl, rfl⟩

/-! ## C5: invoice line-item rows -/

/-- C5 counterexample: a line item whose total is the truthy
non-numeric string abc renders the total cell as NaN, not as the 0.00
the claim promises for non-numeric totals (only falsy values are
coerced to 0 by the total || 0 expression). -/
theorem c5_counterexample :
    (rowOf 0 { itemName := .strV "Tea", qty := .numV 2, total := .strV "abc" }).totalCol.text =
      "NaN" ∧ "NaN" ≠ "0.00" := by
  exact ⟨rfl, by decide⟩

/-- C5 (amended): each emitted row carries the 1-based sequence number,
an item name truncated to at most 18 characters, and right-aligned
quantity and total cells; the total is printed by toFixed(2), so an
absent (or otherwise falsy) total renders 0.00, the total 19.999
renders 20.00, and every numeric total gets exactly two fraction
digits.  An absent quantity renders 0.  A truthy non-numeric total is
NOT coerced to 0: Number() yields NaN and the cell shows NaN. -/
theorem c5_invoice_row :
    ∀ (i : Nat) (it : LineItemJ),
      (rowOf i it).seqCol.text = natToDec (i + 1) ∧
      (rowOf i it).seqCol.cols = 3 ∧
      (rowOf i it).nameCol.text.length ≤ 18 ∧
      (rowOf i it).qtyCol.align = some "RIGHT" ∧
      (rowOf i it).totalCol.align = some "RIGHT" ∧
      (it.qty = .undef → (rowOf i it).qtyCol.text = "0") ∧
      (it.total = .undef → (rowOf i it).totalCol.text = "0.00") ∧
      (it.total = .numV (19999 / 1000) → (rowOf i it).totalCol.text = "20.00") ∧
      (∀ q : ℚ, it.total = .numV q →
        ∃ a b, (rowOf i it).totalCol.text = a ++ "." ++ b ∧ b.length = 2) ∧
      (∀ s, it.total = .strV s → s ≠ "" → parseNum s = none →
        (rowOf i it).totalCol.text = "NaN") := by
  intro i it
  refine ⟨?_, rfl, ?_, rfl, rfl, ?_, ?_, ?_, ?_, ?_⟩
  · show jsToString (.numV ((i : ℚ) + 1)) = natToDec (i + 1)
    rw [show ((i : ℚ) + 1) = (((i + 1 : Nat)) : ℚ) by push_cast; ring]
    exact jsToString_natCast (i + 1)
  · show (substrTo 18 (jsToString (jsOr it.itemName (.strV "")))).length ≤ 18
    have h : (substrTo 18 (jsToString (jsOr it.itemName (.strV "")))).length =
        min 18 (jsToString (jsOr it.itemName (.strV ""))).data.length := by
      simp [substrTo]
    rw [h]
    exact min_le_left _ _
  · intro h
    show jsToString (jsOr it.qty (.numV 0)) = "0"
    rw [h]
    show jsToString (.numV 0) = "0"
    rw [show (0 : ℚ) = ((0 : Nat) : ℚ) by norm_num, jsToString_natCast]
    rfl
  · intro h
    show toFixed2 (jsToNumber (jsOr it.total (.numV 0))) = "0.00"
    rw [h]
    exact toFixed2_zero_eval
  · intro h
    show toFixed2 (jsToNumber (jsOr it.total (.numV 0))) = "20.00"
    rw [h]
    have ht : jsOr (.numV (19999 / 1000 : ℚ)) (.numV 0) = .numV (19999 / 1000) := by
      unfold jsOr
      rw [show truthy (.numV (19999 / 1000 : ℚ)) = true from by
        simp only [truthy]; rw [if_neg (by norm_num)]]
      rfl
    rw [ht]
    exact toFixed2_round_eval
  · intro q hq
    show ∃ a b, toFixed2 (jsToNumber (jsOr it.total (.numV 0))) = a ++ "." ++ b ∧ b.length = 2
    rw [hq]
    by_cases h0 : q = 0
    · subst h0
      rw [show jsOr (.numV (0 : ℚ)) (.numV 0) = .numV 0 from by unfold jsOr; exact ite_self _]
      exact toFixed2_two_decimals 0
    · rw [show jsOr (.numV q) (.numV 0) = .numV q from by
        unfold jsOr
        rw [show truthy (.numV q) = true from by simp only [truthy]; rw [if_neg h0]]
        rfl]
      exact toFixed2_two_decimals q
  · intro s hs hemp hparse
    show toFixed2 (jsToNumber (jsOr it.total (.numV 0))) = "NaN"
    rw [hs]
    rw [show jsOr (.strV s) (.numV 0) = .strV s from by
      unfold jsOr
      rw [show truthy (.strV s) = true from by simp [truthy, hemp]]
      rfl]
    show toFixed2 (parseNum s) = "NaN"
    rw [hparse]
    rfl

/-- C5 witness: the first row of an invoice with total 19.999 shows
20.00, and a row whose line item carries no fields at all shows a 0
quantity and a 0.00 total. -/
theorem c5_witness :
    (rowOf 0 { itemName := .strV "Tea", qty := .numV 2, total := .numV (19999 / 1000) }).totalCol.text = "20.00" ∧
    (rowOf 4 ({} : LineItemJ)).totalCol.text = "0.00" ∧
    (rowOf 4 ({} : LineItemJ)).qtyCol.text = "0" := by
  refine ⟨?_, ?_, ?_⟩
  · exact (c5_invoice_row 0 _).2.2.2.2.2.2.2.1 rfl
  · exact (c5_invoice_row 4 _).2.2.2.2.2.2.1 rfl
  · exact (c5_invoice_row 4 _).2.2.2.2.2.1 rfl

/-! ## C6: dispatch result reporting -/

/-- C6: the Core variant B /print route answers ok:true for an enabled
resolved printer NO MATTER what the transport later does — rawPrint is
fired without awaiting and carries no error handling, so a failed
transmission is still reported as success, contradicting the documented
contract that a transport failure yields a failure report and that
success and failure are exclusive and faithful. -/
theorem c6_success_reported_on_transport_failure :
    ∀ o : TransportOutcome,
      printRouteB [{ id := "P1", role := "CASHIER", status := "enabled", ip := "10.0.0.9", port := "9100", cutFlag := "true" }]
        (some "P1") none (some "hello") o = .okTrue := by
  intro o
  rfl

/-! ## C7: storage read failures -/

/-- C7 counterexample: readPrinters and readClients of src/server.js
call JSON.parse with no guard, so an empty or malformed persisted file
makes the list operation propagate the parse error instead of
returning the empty collection. -/
theorem c7_counterexample :
    readPrintersFinal (some .pEmpty) = .error () ∧
    readClientsFinal (some .cMalformed) = .error () := by
  exact ⟨rfl, rfl⟩

/-- C7 (amended): the safeRead-based loaders of the Stable variant
never fail — an absent, blank or malformed file yields the empty
collection and a well-formed document yields its records — but the
readPrinters/readClients helpers of src/server.js propagate an
exception for an absent, empty or malformed file. -/
theorem c7_storage_defaults :
    (∀ f : Option PrinterFile,
      ((f = none ∨ f = some .pEmpty ∨ f = some .pMalformed) → loadPrintersP000 f = []) ∧
      (∀ ps, f = some (.pDoc ps) → loadPrintersP000 f = ps)) ∧
    (∀ g : Option ClientFile,
      ((g = none ∨ g = some .cEmpty ∨ g = some .cMalformed) → loadClientsP000 g = []) ∧
      (∀ cs, g = some (.cDoc cs) → loadClientsP000 g = cs)) ∧
    (∀ f : Option PrinterFile,
      ((f = none ∨ f = some .pEmpty ∨ f = some .pMalformed) →
        readPrintersFinal f = .error ()) ∧
      (∀ ps, f = some (.pDoc ps) → readPrintersFinal f = .ok ps)) ∧
    (∀ g : Option ClientFile,
      ((g = none ∨ g = some .cEmpty ∨ g = some .cMalformed) →
        readClientsFinal g = .error ()) ∧
      (∀ cs, g = some (.cDoc cs) → readClientsFinal g = .ok cs)) := by
  refine ⟨?_, ?_, ?_, ?_⟩ <;>
    exact fun f =>
      ⟨by rintro (rfl | rfl | rfl) <;> rfl, by rintro xs rfl; rfl⟩

/-- C7 witness: a malformed printer file and an absent client file load
as empty collections in the Stable variant, and a well-formed document
loads its records; src/server.js fails on the same malformed file. -/
theorem c7_witness :
    loadPrintersP000 (some .pMalformed) = [] ∧
    loadClientsP000 none = [] ∧
    readPrintersFinal (some (.pDoc [cashRec "a" true])) = .ok [cashRec "a" true] ∧
    readPrintersFinal (some .pMalformed) = .error () := by
  refine ⟨(c7_storage_defaults.1 _).1 (Or.inr (Or.inr rfl)),
    (c7_storage_defaults.2.1 _).1 (Or.inl rfl),
    (c7_storage_defaults.2.2.1 _).2 _ rfl,
    (c7_storage_defaults.2.2.1 _).1 (Or.inr (Or.inr rfl))⟩

/-! ## C8: printer resolution for dispatch -/

/-- C8 counterexample: the registry holds an ENABLED printer with id
P1, and the requested identifier p1 matches it case-insensitively — the
Core variant A lookup finds it, but the Stable variant /print lookup
compares ids exactly and answers 404 Printer not found, refuting the
claim that resolution matches case-insensitively for every dispatch. -/
theorem c8_counterexample :
    lowerEq "P1" "p1" = true ∧
    resolveCore [{ id := "P1", role := "CASHIER", enabled := true }] "p1" =
      some { id := "P1", role := "CASHIER", enabled := true } ∧
    resolveP000 [{ id := "P1", role := "CASHIER", enabled := true }] "p1" = none ∧
    printRouteP000 [{ id := "P1", role := "CASHIER", enabled := true }]
      (some "p1") none (some "hi") = .notFound "Printer not found or disabled" := by
  exact ⟨rfl, rfl, rfl, rfl⟩

/-- C8 (amended): both lookups select only among enabled records, and
an empty resolution makes the Stable /print route answer 404 with
nothing dispatched; but the matching differs per variant — the Core
variant A /print matches the id case-insensitively with a
case-insensitive name fallback, while the Stable variant /print
matches the id exactly, with no name fallback. -/
theorem c8_resolution :
    (∀ (ps : List PrinterRec) (pid : String) (p : PrinterRec),
      resolveCore ps pid = some p →
      p.enabled = true ∧
        (lowerEq p.id pid = true ∨ ∃ n, p.name = some n ∧ lowerEq n pid = true)) ∧
    (∀ (ps : List PrinterRec) (pid : String),
      (∀ p ∈ ps, ¬(p.enabled = true ∧
        (lowerEq p.id pid = true ∨ ∃ n, p.name = some n ∧ lowerEq n pid = true))) →
      resolveCore ps pid = none) ∧
    (∀ (ps : List PrinterRec) (pid : String) (p : PrinterRec),
      resolveP000 ps pid = some p → p.enabled = true ∧ p.id = pid) ∧
    (∀ (ps : List PrinterRec) (pid : String),
      (∀ p ∈ ps, ¬(p.id = pid ∧ p.enabled = true)) → resolveP000 ps pid = none) ∧
    (∀ (ps : List PrinterRec) (hp bp t : Option String),
      falsyStr (if falsyStr hp then bp else hp) = false → falsyStr t = false →
      resolveP000 ps ((if falsyStr hp then bp else hp).getD "") = none →
      printRouteP000 ps hp bp t = .notFound "Printer not found or disabled") := by
  refine ⟨?_, ?_, ?_, ?_, ?_⟩
  · intro ps pid p h
    have hp := List.find?_some (p := fun (x : PrinterRec) => x.enabled && (lowerEq x.id pid ||
      (match x.name with | some n => lowerEq n pid | none => false)))
      (show List.find? (fun (x : PrinterRec) => x.enabled && (lowerEq x.id pid ||
        (match x.name with | some n => lowerEq n pid | none => false))) ps = some p from h)
    rw [Bool.and_eq_true] at hp
    refine ⟨hp.1, ?_⟩
    have h2 := hp.2
    rw [Bool.or_eq_true] at h2
    rcases h2 with h3 | h3
    · exact Or.inl h3
    · cases hn : p.name with
      | none => rw [hn] at h3; simp at h3
      | some n =>
        rw [hn] at h3
        exact Or.inr ⟨n, rfl, by simpa using h3⟩
  · intro ps pid hall
    apply List.find?_eq_none.mpr
    intro p hmem hpred
    apply hall p hmem
    rw [Bool.and_eq_true] at hpred
    refine ⟨hpred.1, ?_⟩
    have h2 := hpred.2
    rw [Bool.or_eq_true] at h2
    rcases h2 with h3 | h3
    · exact Or.inl h3
    · cases hn : p.name with
      | none => rw [hn] at h3; simp at h3
      | some n =>
        rw [hn] at h3
        exact Or.inr ⟨n, rfl, by simpa using h3⟩
  · intro ps pid p h
    have hp := List.find?_some (p := fun (x : PrinterRec) => x.id == pid && x.enabled)
      (show List.find? (fun (x : PrinterRec) => x.id == pid && x.enabled) ps = some p from h)
    rw [Bool.and_eq_true] at hp
    exact ⟨hp.2, by simpa using hp.1⟩
  · intro ps pid hall
    apply List.find?_eq_none.mpr
    intro p hmem hpred
    apply hall p hmem
    rw [Bool.and_eq_true] at hpred
    exact ⟨by simpa using hpred.1, hpred.2⟩
  · intro ps hp bp t h1 h2 hres
    unfold printRouteP000
    rw [h1, h2, hres]
    rfl

/-- C8 witness: a record the Core variant A lookup resolves is indeed
enabled and matches case-insensitively, and a dispatch against an empty
registry with well-formed headers answers 404 with nothing dispatched. -/
theorem c8_witness :
    (({ id := "P1", role := "CASHIER", enabled := true } : PrinterRec).enabled = true ∧
      (lowerEq "P1" "p1" = true ∨ ∃ n,
        ({ id := "P1", role := "CASHIER", enabled := true } : PrinterRec).name = some n ∧
        lowerEq n "p1" = true)) ∧
    printRouteP000 [] (some "x") none (some "t") =
      .notFound "Printer not found or disabled" := by
  constructor
  · exact c8_resolution.1 [{ id := "P1", role := "CASHIER", enabled := true }] "p1"
      { id := "P1", role := "CASHIER", enabled := true } rfl
  · exact c8_resolution.2.2.2.2 [] (some "x") none (some "t") rfl rfl rfl

theorem pinFrom_bounds (r : ℚ) (h0 : 0 ≤ r) (h1 : r < 1) :
    100000 ≤ pinFrom r ∧ pinFrom r ≤ 999999 := by
  have hlb : (100000 : ℤ) ≤ Int.floor ((100000 : ℚ) + r * 900000) := by
    apply Int.le_floor.mpr
    push_cast
    nlinarith
  have hub : Int.floor ((100000 : ℚ) + r * 900000) < 1000000 := by
    apply Int.floor_lt.mpr
    push_cast
    nlinarith
  unfold pinFrom
  constructor
  · rw [Int.le_toNat (by omega)]
    exact_mod_cast hlb
  · rw [Int.toNat_le]
    omega

/-! ## C9: client registration -/

/-- C9 counterexample: the Core variant B registration pushes the bare
pair of id and pin: the minted record carries NO enabled flag at all
(undefined, a falsy value), refuting the claim that every minted client
record is created with enabled = true. -/
theorem c9_counterexample :
    (createB [] "abc123" (1 / 2)).1.enabled = none ∧
    ¬((createB [] "abc123" (1 / 2)).1.enabled = some true) := by
  exact ⟨rfl, by decide⟩

/-- C9 (amended): the Stable variant registration mints enabled = true,
role CLIENT and a pin whose value lies in [100000, 999999] and prints
as exactly 6 decimal digits, and the minted pair immediately passes the
Stable auth gate (which checks the enabled flag).  The Core variant B
registration mints the same 6-digit pin but stores only id and pin with
no enabled flag; its minted pair still immediately passes that
variant's own gate, because that gate never reads enabled. -/
theorem c9_registration :
    ∀ (cs : List ClientRec) (suffix now : String) (r : ℚ), 0 ≤ r → r < 1 →
      (∀ x ∈ cs, x.id ≠ "clt-" ++ suffix) →
      ((createP000 cs suffix r now).1.enabled = some true ∧
       (createP000 cs suffix r now).1.role = some "CLIENT" ∧
       100000 ≤ pinFrom r ∧ pinFrom r ≤ 999999 ∧
       ((createP000 cs suffix r now).1.pin).length = 6 ∧
       authRequiredP000 true (createP000 cs suffix r now).2
         (some (createP000 cs suffix r now).1.id)
         (some (createP000 cs suffix r now).1.pin) =
           .okClient (createP000 cs suffix r now).1) ∧
      ((createB cs suffix r).1.enabled = none ∧
       (createB cs suffix r).1.pin = natToDec (pinFrom r) ∧
       authB true (createB cs suffix r).2 (some (createB cs suffix r).1.id)
         (some (createB cs suffix r).1.pin) = .passB) := by
  intro cs suffix now r h0 h1 hfresh
  have hpin := pinFrom_bounds r h0 h1
  have hlen : (natToDec (pinFrom r)).length = 6 := natToDec_len6 _ hpin.1 hpin.2
  have hpne : natToDec (pinFrom r) ≠ "" := by
    intro h
    rw [h] at hlen
    simp at hlen
  have hidne : ("clt-" ++ suffix) ≠ "" := by
    intro h
    have h2 := congrArg String.length h
    rw [String.length_append] at h2
    rw [show ("clt-").length = 4 from rfl, show ("" : String).length = 0 from rfl] at h2
    omega
  have hfid : falsyStr (some ("clt-" ++ suffix)) = false := by
    simp only [falsyStr]
    exact beq_eq_false_iff_ne.mpr hidne
  have hfpin : falsyStr (some (natToDec (pinFrom r))) = false := by
    simp only [falsyStr]
    exact beq_eq_false_iff_ne.mpr hpne
  refine ⟨⟨rfl, rfl, hpin.1, hpin.2, hlen, ?_⟩, rfl, rfl, ?_⟩
  · have hc1 : (createP000 cs suffix r now).1.id = "clt-" ++ suffix := rfl
    have hc2 : (createP000 cs suffix r now).1.pin = natToDec (pinFrom r) := rfl
    have hc3 : (createP000 cs suffix r now).1.enabled = some true := rfl
    have hc4 : (createP000 cs suffix r now).2 = cs ++ [(createP000 cs suffix r now).1] := rfl
    rw [hc1, hc2, hc4]
    have hl : cs.find? (fun x => some x.id == some ("clt-" ++ suffix)) = none := by
      apply List.find?_eq_none.mpr
      intro x hx hbeq
      exact hfresh x hx (by simpa using hbeq)
    have hpredc : (some (createP000 cs suffix r now).1.id ==
        some ("clt-" ++ suffix)) = true := by
      rw [hc1]
      simp
    have hfind : (cs ++ [(createP000 cs suffix r now).1]).find?
        (fun x => some x.id == some ("clt-" ++ suffix)) =
        some ((createP000 cs suffix r now).1) := by
      rw [List.find?_append, hl]
      simp [List.find?_cons, hc1]
    unfold authRequiredP000
    rw [if_neg (by decide)]
    rw [if_neg (by rw [hfid, hfpin]; decide)]
    rw [hfind]
    show (if !((createP000 cs suffix r now).1.enabled == some true) then
        AuthOutP.e403 "Client not allowed"
      else if !(some (createP000 cs suffix r now).1.pin ==
          some (natToDec (pinFrom r))) then AuthOutP.e403 "Invalid Print Key"
      else AuthOutP.okClient ((createP000 cs suffix r now).1)) =
      AuthOutP.okClient ((createP000 cs suffix r now).1)
    rw [hc3, hc2]
    rw [if_neg (by decide)]
    rw [if_neg (by simp)]
  · have hc1 : (createB cs suffix r).1.id = "clt-" ++ suffix := rfl
    have hc2 : (createB cs suffix r).1.pin = natToDec (pinFrom r) := rfl
    have hc4 : (createB cs suffix r).2 = cs ++ [(createB cs suffix r).1] := rfl
    rw [hc1, hc2, hc4]
    have hs : ((cs ++ [(createB cs suffix r).1]).find?
        (fun x => some x.id == some ("clt-" ++ suffix) &&
          some x.pin == some (natToDec (pinFrom r)))).isSome = true := by
      apply List.find?_isSome.mpr
      refine ⟨(createB cs suffix r).1, List.mem_append_right _ (by simp), ?_⟩
      rw [Bool.and_eq_true]
      constructor
      · rw [hc1]; simp
      · rw [hc2]; simp
    unfold authB
    rw [if_neg (by decide)]
    rw [if_neg (by rw [hfid, hfpin]; decide)]
    rw [if_pos hs]

/-- C9 witness: with the random draw one half, registration mints pin
550000; the record carries enabled = true and its pair passes the
Stable gate. -/
theorem c9_witness :
    (createP000 [] "ab12cd" (1 / 2) "t0").1.enabled = some true ∧
    ((createP000 [] "ab12cd" (1 / 2) "t0").1.pin).length = 6 ∧
    authRequiredP000 true (createP000 [] "ab12cd" (1 / 2) "t0").2
      (some (createP000 [] "ab12cd" (1 / 2) "t0").1.id)
      (some (createP000 [] "ab12cd" (1 / 2) "t0").1.pin) =
      .okClient (createP000 [] "ab12cd" (1 / 2) "t0").1 := by
  have h := c9_registration [] "ab12cd" "t0" (1 / 2) (by norm_num) (by norm_num)
    (fun x hx => absurd hx (List.not_mem_nil x))
  exact ⟨h.1.1, h.1.2.2.2.2.1, h.1.2.2.2.2.2⟩
